import Mathlib

/-!
Verification of the Smart-Cat request-orchestration and risk-gated mutation
engine against its specification.

The development is a shallow embedding of the relevant Python sources:
* `src/kicad_operations.py` — board mutation engine (`KiCadOperations`),
* `src/permissions.py` — risk assessor (`PermissionManager`),
* `src/circuit_generator.py` — template catalog and circuit matcher,
* `src/AI_API.py` — session orchestrator (`AIAPIClient`).

Modelling conventions:
* The external `pcbnew` board singleton is modelled as an explicit `Option Board`
  threaded through an operation state; `pcbnew.GetBoard()` returning `None`
  corresponds to the `none` case, and the Python `try/except` handlers around
  a missing board correspond to the explicit failure branches.
* Python float millimetre values are modelled as rationals (`ℚ`); `pcbnew.FromMM`
  is exact scaling by 10^6.  No verified property depends on float rounding.
* `datetime.now()` timestamps are an external input, passed as an explicit
  `String` argument `ts` to the operations that record one.
* Multi-line display strings (markdown blobs shown to the user) are condensed
  to short one-line summaries carrying the same dynamic data; every control-flow
  decision and state effect of the source is preserved exactly.
* The availability flags `PCBNEW_AVAILABLE`, `KICAD_OPS_AVAILABLE` and
  `CIRCUIT_GEN_AVAILABLE` are modelled as true (all modules importable).
-/

namespace SmartCat

/-! ### Python string primitives -/

/-- ASCII lowercasing of a single character, as Python `str.lower` acts on the
ASCII inputs that occur in this program. -/
def lowerChar (c : Char) : Char :=
  if 65 ≤ c.toNat ∧ c.toNat ≤ 90 then Char.ofNat (c.toNat + 32) else c

/-- Python `s.lower()` (ASCII fragment). -/
def pyLower (s : String) : String := ⟨s.data.map lowerChar⟩

/-- Substring test on character lists (helper for `strContains`). -/
def containsSub (pat : List Char) : List Char → Bool
  | [] => pat.isEmpty
  | c :: t => pat.isPrefixOf (c :: t) || containsSub pat t

/-- Python `pat in hay` on strings. -/
def strContains (hay pat : String) : Bool := containsSub pat.toList hay.toList

/-- Maximal digit runs of a character list (helper for `findall_digits`);
the accumulator holds the current run reversed. -/
def digitRunsAux : List Char → List Char → List (List Char)
  | [], cur => if cur.isEmpty then [] else [cur.reverse]
  | c :: t, cur =>
    if c.isDigit then digitRunsAux t (c :: cur)
    else if cur.isEmpty then digitRunsAux t []
    else cur.reverse :: digitRunsAux t []

/-- Python `[int(x) for x in re.findall(r'\d+', s)]`: the numeric values of the
maximal digit runs of `s`, in order. -/
def findall_digits (s : String) : List Nat :=
  (digitRunsAux s.toList []).map (fun run => run.foldl (fun n c => n * 10 + (c.toNat - 48)) 0)

/-! ### pcbnew layer-id constants (KiCad copper layer numbering) -/

def F_Cu : Nat := 0
def In1_Cu : Nat := 1
def In30_Cu : Nat := 30
def B_Cu : Nat := 31
/-- Constant `pcbnew.PCB_LAYER_ID_COUNT`: total number of layer ids. -/
def PCB_LAYER_ID_COUNT : Nat := 60

/-! ### Board model (the external `pcbnew` board and its design settings) -/

/-- The design-settings surface read and written by `kicad_operations.py`:
current track width / via size / via drill, the minimums, and
`m_TrackClearance` (which may be absent on some KiCad versions —
see `Board.has_clearance_attr`).  Values are internal (nanometre) units. -/
structure DesignSettings where
  track_width : ℚ
  via_size : ℚ
  via_drill : ℚ
  m_TrackMinWidth : ℚ
  m_ViasMinSize : ℚ
  m_ViasMinDrill : ℚ
  m_TrackClearance : ℚ
  deriving DecidableEq

/-- The external board: copper layer count, enabled-layer set, layer names,
design settings, and whether the host supports the `m_TrackClearance`
attribute (its absence raises `AttributeError` in the source). -/
structure Board where
  copper_layer_count : Nat
  enabled : List Nat
  layer_names : List (Nat × String)
  design_settings : DesignSettings
  has_clearance_attr : Bool
  deriving DecidableEq

/-- Conversion `pcbnew.FromMM`: millimetres to internal units. -/
def FromMM (v : ℚ) : ℚ := v * 1000000

/-- Add a layer id to the enabled-layer set
(`board.SetEnabledLayers(board.GetEnabledLayers().set(layer_id))`). -/
def insertLayer (ls : List Nat) (l : Nat) : List Nat :=
  if ls.contains l then ls else ls ++ [l]

/-- Model of `board.SetLayerName(layer_id, name)`. -/
def setLayerName (names : List (Nat × String)) (l : Nat) (nm : String) : List (Nat × String) :=
  if names.any (fun p => p.1 = l)
  then names.map (fun p => if p.1 = l then (l, nm) else p)
  else names ++ [(l, nm)]

/-! ### KiCadOperations state -/

/-- A value stored in the `backup_settings` dict: rational-valued settings,
the natural-valued layer count, or the enabled-layer list. -/
inductive SVal where
  | q : ℚ → SVal
  | n : Nat → SVal
  | ls : List Nat → SVal
  deriving DecidableEq

/-- The sparse settings map accepted by `modify_board_settings`
(millimetre values; a `none` field is an absent dict key). -/
structure SettingsReq where
  track_width : Option ℚ
  min_track_width : Option ℚ
  via_size : Option ℚ
  via_drill : Option ℚ
  clearance : Option ℚ
  deriving DecidableEq

/-- An entry of `KiCadOperations.operation_history`.  The source appends
exactly two shapes of dict; they are modelled as tagged variants carrying
the same fields. -/
inductive Operation where
  | add_copper_layers (from_count to_count : Nat) (added_layers : List Nat) (timestamp : String)
  | modify_board_settings (settings : SettingsReq) (changes : List String) (timestamp : String)
  deriving DecidableEq

/-- The `"type"` field of an operation dict. -/
def opType : Operation → String
  | .add_copper_layers .. => "add_copper_layers"
  | .modify_board_settings .. => "modify_board_settings"

/-- The `"timestamp"` field of an operation dict. -/
def opTimestamp : Operation → String
  | .add_copper_layers _ _ _ ts => ts
  | .modify_board_settings _ _ ts => ts

/-- The mutable state of the mutation engine: the external board
(`pcbnew.GetBoard()`, `none` when no board is active), the
`backup_settings` dict (empty at start), and the operation history. -/
structure OpState where
  board : Option Board
  backup_settings : List (String × SVal)
  operation_history : List Operation
  deriving DecidableEq

/-- The list of layer ids enabled on the board, computed as in
`backup_current_settings`: scan `range(PCB_LAYER_ID_COUNT)` and keep the
enabled ones. -/
def enabledList (b : Board) : List Nat :=
  (List.range PCB_LAYER_ID_COUNT).filter (fun l => b.enabled.contains l)

/-- The dict literal stored by `backup_current_settings` (same keys, same
order as the source). -/
def mkBackup (b : Board) : List (String × SVal) :=
  [("layer_count", .n b.copper_layer_count),
   ("track_width", .q b.design_settings.track_width),
   ("via_size", .q b.design_settings.via_size),
   ("via_drill", .q b.design_settings.via_drill),
   ("min_track_width", .q b.design_settings.m_TrackMinWidth),
   ("min_via_size", .q b.design_settings.m_ViasMinSize),
   ("min_via_drill", .q b.design_settings.m_ViasMinDrill),
   ("enabled_layers", .ls (enabledList b))]

/-- Model of `KiCadOperations.backup_current_settings`: snapshot the current board
settings into `backup_settings`; `False` when no board is active. -/
def backup_current_settings (s : OpState) : Bool × OpState :=
  match s.board with
  | none => (false, s)
  | some b => (true, { s with backup_settings := mkBackup b })

/-- Dict lookup of a rational-valued backup entry; `none` models the
`KeyError`/type error raised on a missing or differently-shaped entry. -/
def lookupQ (bk : List (String × SVal)) (k : String) : Option ℚ :=
  match bk.lookup k with
  | some (SVal.q v) => some v
  | _ => none

/-- Model of `KiCadOperations.restore_settings`: restore track width, via size and via
drill from the last backup.  The three assignments happen in source order, so
a malformed backup can leave a prefix of them applied before the exception
returns `False` — mirrored by the nested matches. -/
def restore_settings (s : OpState) : Bool × OpState :=
  if s.backup_settings.isEmpty then (false, s)
  else match s.board with
  | none => (false, s)
  | some b =>
    match lookupQ s.backup_settings "track_width" with
    | none => (false, s)
    | some tw =>
      let b1 := { b with design_settings := { b.design_settings with track_width := tw } }
      match lookupQ s.backup_settings "via_size" with
      | none => (false, { s with board := some b1 })
      | some vs =>
        let b2 := { b1 with design_settings := { b1.design_settings with via_size := vs } }
        match lookupQ s.backup_settings "via_drill" with
        | none => (false, { s with board := some b2 })
        | some vd =>
          let b3 := { b2 with design_settings := { b2.design_settings with via_drill := vd } }
          (true, { s with board := some b3 })

/-- Model of `KiCadOperations.can_add_copper_layers`. -/
def can_add_copper_layers (target_count : Nat) (s : OpState) : Bool × String :=
  match s.board with
  | none => (false, "No active board")
  | some b =>
    let current_count := b.copper_layer_count
    if target_count ≤ current_count then
      (false, s!"Board already has {current_count} copper layers (requested: {target_count})")
    else if target_count > 30 then
      (false, "KiCad supports maximum 30 copper layers")
    else if target_count % 2 ≠ 0 ∧ target_count > 2 then
      (false, "Multilayer boards typically use even number of layers for manufacturing")
    else
      (true, s!"Can add {target_count - current_count} copper layers")

/-- The layer-enabling loop of `add_copper_layers`: for each
`i ∈ range(layers_to_add)`, enable layer `In1_Cu + i` (when it does not
exceed `In30_Cu`), name it `In{i+1}.Cu`, and collect the enabled ids. -/
def enableInnerLayers (b : Board) (layers_to_add : Nat) : Board × List Nat :=
  (List.range layers_to_add).foldl
    (fun acc i =>
      let layer_id := In1_Cu + i
      if layer_id ≤ In30_Cu then
        ({ acc.1 with
            enabled := insertLayer acc.1.enabled layer_id,
            layer_names := setLayerName acc.1.layer_names layer_id (s!"In{i + 1}.Cu") },
         acc.2 ++ [layer_id])
      else acc)
    (b, [])

/-- The successful tail of `add_copper_layers`, applied after the
precondition check and a successful backup: enable the inner layers, set the
new copper layer count, and append the operation record.  `b` is the board
read before the backup; `s1` is the state after the backup. -/
def add_copper_layers_apply (ts : String) (target_count : Nat) (b : Board) (s1 : OpState) :
    (Bool × String) × OpState :=
  let current_count := b.copper_layer_count
  let layers_to_add := target_count - current_count
  let eb := enableInnerLayers b layers_to_add
  let b3 := { eb.1 with copper_layer_count := target_count }
  let op : Operation := .add_copper_layers current_count target_count eb.2 ts
  ((true, s!"Successfully added {layers_to_add} copper layers (now {target_count} total)"),
   { s1 with board := some b3, operation_history := s1.operation_history ++ [op] })

/-- Model of `KiCadOperations.add_copper_layers`. -/
def add_copper_layers (ts : String) (target_count : Nat) (s : OpState) :
    (Bool × String) × OpState :=
  let cam := can_add_copper_layers target_count s
  if cam.1 = false then ((false, cam.2), s)
  else
    match s.board with
    | none => ((false, "Error adding copper layers: no active board"), s)
    | some b =>
      match backup_current_settings s with
      | (false, s1) => ((false, "Failed to backup current settings"), s1)
      | (true, s1) => add_copper_layers_apply ts target_count b s1

/-- The sequential key-by-key application step of `modify_board_settings`:
starting from the board's design settings, apply the provided keys in source
order (track width, min track width, via size, via drill, clearance) and
accumulate the change descriptions.  An unsupported clearance attribute is
reported as a note without applying anything. -/
def applySettings (settings : SettingsReq) (b : Board) : DesignSettings × List String :=
  let p0 : DesignSettings × List String := (b.design_settings, [])
  let p1 := match settings.track_width with
    | some v => ({ p0.1 with track_width := FromMM v }, p0.2 ++ [s!"Track width: {v}mm"])
    | none => p0
  let p2 := match settings.min_track_width with
    | some v => ({ p1.1 with m_TrackMinWidth := FromMM v }, p1.2 ++ [s!"Min track width: {v}mm"])
    | none => p1
  let p3 := match settings.via_size with
    | some v => ({ p2.1 with via_size := FromMM v }, p2.2 ++ [s!"Via size: {v}mm"])
    | none => p2
  let p4 := match settings.via_drill with
    | some v => ({ p3.1 with via_drill := FromMM v }, p3.2 ++ [s!"Via drill: {v}mm"])
    | none => p3
  match settings.clearance with
  | some v =>
    if b.has_clearance_attr then
      ({ p4.1 with m_TrackClearance := FromMM v }, p4.2 ++ [s!"Track clearance: {v}mm"])
    else
      (p4.1, p4.2 ++ ["Clearance setting not available in this KiCad version"])
  | none => p4

/-- Model of `KiCadOperations.modify_board_settings`. -/
def modify_board_settings (ts : String) (settings : SettingsReq) (s : OpState) :
    (Bool × String) × OpState :=
  match s.board with
  | none => ((false, "No active board"), s)
  | some b =>
    match backup_current_settings s with
    | (false, s1) => ((false, "Failed to backup current settings"), s1)
    | (true, s1) =>
      let p := applySettings settings b
      let op : Operation := .modify_board_settings settings p.2 ts
      ((true, "Settings modified: " ++ String.intercalate ", " p.2),
       { s1 with
          board := some { b with design_settings := p.1 },
          operation_history := s1.operation_history ++ [op] })

/-- Model of `KiCadOperations.clear_operation_history`. -/
def clear_operation_history (s : OpState) : OpState :=
  { s with operation_history := [] }

/-- Model of `KiCadOperations.can_undo_last_operation`.  The history only ever holds
the two recognized operation shapes, so the `Cannot undo operation type`
branch of the source is unreachable and has no constructor to match. -/
def can_undo_last_operation (s : OpState) : Bool × String :=
  match s.operation_history.getLast? with
  | none => (false, "No operations to undo")
  | some (.add_copper_layers fc tc _ _) =>
    (true, s!"Can undo layer addition from {fc} to {tc} layers")
  | some (.modify_board_settings _ changes _) =>
    (true, "Can undo board settings changes: " ++ String.intercalate ", " changes)

/-- Model of `KiCadOperations.undo_last_operation`: restore the last backup, then pop
the most recent history entry. -/
def undo_last_operation (s : OpState) : (Bool × String) × OpState :=
  let cu := can_undo_last_operation s
  if cu.1 = false then ((false, cu.2), s)
  else
    match restore_settings s with
    | (true, s1) =>
      match s1.operation_history.getLast? with
      | some op =>
        ((true, "Undone: " ++ opType op ++ " from " ++ opTimestamp op),
         { s1 with operation_history := s1.operation_history.dropLast })
      | none => ((false, "Error during undo: pop from empty list"), s1)
    | (false, s1) => ((false, "Failed to restore settings"), s1)

/-! ### Risk assessor (`src/permissions.py`) -/

/-- Enum `ModificationRisk` from `permissions.py`. -/
inductive ModificationRisk where
  | SAFE
  | LOW
  | MEDIUM
  | HIGH
  | CRITICAL
  deriving DecidableEq

/-- Model of `PermissionManager.assess_modification_risk`: the fixed mutation-type
table, in source order, with the conservative `MEDIUM` default.  The unused
`details` argument of the source is omitted. -/
def assess_modification_risk (modification_type : String) : ModificationRisk :=
  if modification_type ∈ ["add_copper_layers", "change_layer_count", "modify_stackup"] then
    .CRITICAL
  else if modification_type ∈ ["modify_board_settings", "change_track_width", "change_via_size"] then
    .HIGH
  else if modification_type ∈ ["move_component", "rotate_component"] then
    .MEDIUM
  else if modification_type ∈ ["delete_component", "add_component", "change_component_value"] then
    .HIGH
  else if modification_type ∈ ["reroute_net", "add_track"] then
    .MEDIUM
  else if modification_type ∈ ["delete_net", "split_net", "merge_nets"] then
    .CRITICAL
  else if modification_type ∈ ["update_silkscreen", "modify_text", "change_color"] then
    .SAFE
  else
    .MEDIUM

/-- The full list of mutation-type strings recognized by
`assess_modification_risk` (union of the table rows). -/
def recognizedModificationTypes : List String :=
  ["add_copper_layers", "change_layer_count", "modify_stackup",
   "modify_board_settings", "change_track_width", "change_via_size",
   "move_component", "rotate_component",
   "delete_component", "add_component", "change_component_value",
   "reroute_net", "add_track",
   "delete_net", "split_net", "merge_nets",
   "update_silkscreen", "modify_text", "change_color"]

/-! ### Template catalog & circuit matcher (`src/circuit_generator.py`)

Only the fields that feed control flow or recorded state are modelled
(`name`, `description`, `estimated_layers`); the component/net payloads of
the catalog entries feed display text only. -/

structure CircuitTemplate where
  name : String
  description : String
  estimated_layers : Nat
  deriving DecidableEq

/-- Catalog entry `templates["usb4_flex"]`. -/
def usb4_flex : CircuitTemplate :=
  ⟨"USB4 Flex Cable", "USB4 flexible cable with high-speed differential pairs", 4⟩

/-- Catalog entry `templates["usbc_lightning"]`. -/
def usbc_lightning : CircuitTemplate :=
  ⟨"USB-C to Lightning Cable", "USB-C to Lightning cable with authentication", 2⟩

/-- Catalog entry `templates["led_controller"]`. -/
def led_controller : CircuitTemplate :=
  ⟨"LED Strip Controller", "Simple RGB LED strip controller with PWM", 2⟩

/-- Catalog entry `templates["power_supply"]`. -/
def power_supply : CircuitTemplate :=
  ⟨"Switching Power Supply", "Buck converter power supply module", 2⟩

def usb4_keywords : List String := ["usb4", "usb 4", "thunderbolt", "usb-c flex", "usb4 flex"]
def lightning_keywords : List String := ["lightning", "usbc lightning", "usb-c lightning"]
def led_keywords : List String := ["led strip", "rgb led", "led controller", "pwm led"]
def power_keywords : List String := ["power supply", "buck converter", "voltage regulator", "psu"]

/-- All keyword phrases recognized by the circuit matcher. -/
def allCircuitKeywords : List String :=
  usb4_keywords ++ lightning_keywords ++ led_keywords ++ power_keywords

/-- Model of `CircuitGenerator.identify_circuit_from_description`: lowercase the
description and test the four keyword sets in fixed order; first match wins. -/
def identify_circuit_from_description (description : String) : Option CircuitTemplate :=
  let desc_lower := pyLower description
  if usb4_keywords.any (fun k => strContains desc_lower k) then some usb4_flex
  else if lightning_keywords.any (fun k => strContains desc_lower k) then some usbc_lightning
  else if led_keywords.any (fun k => strContains desc_lower k) then some led_controller
  else if power_keywords.any (fun k => strContains desc_lower k) then some power_supply
  else none

/-! ### Session orchestrator (`src/AI_API.py`) -/

/-- The combined session state seen by `AIAPIClient`: the mutation-engine
state (global `kicad_ops`) and the active circuit
(`circuit_gen.current_circuit`). -/
structure AppState where
  ops : OpState
  current_circuit : Option CircuitTemplate
  deriving DecidableEq

/-- The structured payload returned by `process_advanced_request`
(the source returns a dict; the two populated shapes and the empty dict are
modelled as tagged variants). -/
inductive AdvResult where
  | layerOp (operation : String) (target_count : Nat) (can_perform : Bool) (message : String)
  | settingsOp (operation : String) (settings : SettingsReq) (can_perform : Bool)
  | empty
  deriving DecidableEq

/-- Model of `AIAPIClient.process_advanced_request`, layer-operation branch.
The settings-modification branch (source lines 632–658, regex extraction of
mm values) is not exercised by any verified claim and is not modelled: inputs
that contain none of the layer vocabulary fall through to the final
`(False, "No advanced operation detected", {})` return.
In the layer branch, when the text contains `"layer"` the target is the last
number in the message; otherwise (`"copper"` without `"layer"`) the first
number is added to the current copper layer count read from the board
(`get_layer_info`), falling back to the first number when no board is
active. -/
def process_advanced_request (user_request : String) (s : AppState) :
    Bool × String × AdvResult :=
  let request_lower := pyLower user_request
  if strContains request_lower "add"
      ∧ (strContains request_lower "copper" ∨ strContains request_lower "layer") then
    let numbers := findall_digits user_request
    match numbers with
    | [] => (false, "No advanced operation detected", .empty)
    | n :: rest =>
      let target_count : Nat :=
        if strContains request_lower "layer" then (n :: rest).getLastD 0
        else match s.ops.board with
          | some b => b.copper_layer_count + n
          | none => n
      let cam := can_add_copper_layers target_count s.ops
      (true, s!"Layer operation requested: {target_count} layers",
       .layerOp "add_layers" target_count cam.1 cam.2)
  else (false, "No advanced operation detected", .empty)

/-- Condensed stand-in for the multi-line PCB-layout instruction text of
`create_pcb_layout`. -/
def layoutText (tpl : CircuitTemplate) (layers : Nat) : String :=
  s!"PCB Layout Created for {tpl.name}: total copper layers {layers}"

/-- Model of `AIAPIClient.create_pcb_layout`.  The `template_name` argument of the
source is ignored by its body (it re-reads `circuit_gen.current_circuit`).
When no board is active, `get_layer_info` reports an error and the
layer-adjustment block is skipped, so the instruction text falls back to the
recommended layer count (the source's `locals()` check). -/
def create_pcb_layout (ts : String) (approved_layers : Option Nat) (s : AppState) :
    (Bool × String) × AppState :=
  match s.current_circuit with
  | none => ((false, "No active circuit template"), s)
  | some tpl =>
    let recommended_layers := tpl.estimated_layers
    match s.ops.board with
    | none => ((true, layoutText tpl recommended_layers), s)
    | some b =>
      let current_layers := b.copper_layer_count
      let target_layers := match approved_layers with
        | some a => if a = 0 then recommended_layers else a
        | none => recommended_layers
      if target_layers > current_layers then
        match add_copper_layers ts target_layers s.ops with
        | ((true, _), ops1) =>
          ((true, layoutText tpl target_layers), { s with ops := ops1 })
        | ((false, m), ops1) =>
          ((false, "Failed to add copper layers: " ++ m), { s with ops := ops1 })
      else ((true, layoutText tpl target_layers), s)

/-- Keyword list `pcb_keywords` of `handle_pcb_transition_request`. -/
def pcb_keywords : List String :=
  ["go to pcb", "pcb layout", "create pcb", "make pcb", "yes", "proceed"]

/-- Keyword list `approval_keywords` of `handle_layer_approval`. -/
def approval_keywords : List String :=
  ["yes", "proceed", "ok", "agree", "go ahead", "continue"]

/-- Condensed stand-in for the multi-line layer-recommendation text. -/
def layerRecommendationText (tpl : CircuitTemplate) (layers : Nat) : String :=
  s!"PCB Layout Transition for {tpl.name}: recommend {layers} copper layers"

/-- Model of `AIAPIClient.handle_pcb_transition_request`: fires on any of the
`pcb_keywords` with an active circuit; with more than 2 recommended layers it
(re-)emits the recommendation without mutating anything, otherwise it creates
the 2-layer layout directly.  `get_pcb_requirements` has no failure path once
an active circuit exists, and its `recommended_layers` is the template's
`estimated_layers` (via `estimate_pcb_complexity`). -/
def handle_pcb_transition_request (ts msg : String) (s : AppState) :
    (Bool × String) × AppState :=
  let message_lower := pyLower msg
  let wants_pcb := pcb_keywords.any (fun k => strContains message_lower k)
  if wants_pcb = false then ((false, "No PCB transition request detected"), s)
  else match s.current_circuit with
  | none => ((false, "No active circuit found. Please generate a circuit first."), s)
  | some current_circuit =>
    let recommended_layers := current_circuit.estimated_layers
    if recommended_layers > 2 then
      ((true, layerRecommendationText current_circuit recommended_layers), s)
    else
      match create_pcb_layout ts (some 2) s with
      | ((true, li), s1) => ((true, "Starting 2-layer PCB layout! " ++ li), s1)
      | ((false, li), s1) => ((false, "Failed to create PCB layout: " ++ li), s1)

/-- Model of `AIAPIClient.handle_layer_approval`: fires on any of the
`approval_keywords` with an active circuit and creates the PCB layout with
the template's recommended layer count. -/
def handle_layer_approval (ts msg : String) (s : AppState) :
    (Bool × String) × AppState :=
  let message_lower := pyLower msg
  let approved := approval_keywords.any (fun k => strContains message_lower k)
  if approved = false then ((false, "Layer recommendation not approved"), s)
  else match s.current_circuit with
  | none => ((false, "No active circuit found"), s)
  | some current_circuit =>
    match create_pcb_layout ts (some current_circuit.estimated_layers) s with
    | ((true, r), s1) => ((true, "PCB Layout Created! " ++ r), s1)
    | ((false, r), s1) => ((false, "Failed to create PCB layout: " ++ r), s1)

/-- Which post-processing branch of `send_message` handled the message. -/
inductive DispatchResult where
  | circuitGeneration (templateName : String)
  | pcbTransition (response : String)
  | layerApproval (response : String)
  | plain
  deriving DecidableEq

/-- The response post-processing of `AIAPIClient.send_message`
(lines 290–326): a message matching a circuit template takes the
circuit-generation branch (which sets the active circuit via
`create_schematic`); otherwise `handle_pcb_transition_request` runs first and,
only if it reports no transition, `handle_layer_approval` runs. -/
def postprocess_response (ts msg : String) (s : AppState) : DispatchResult × AppState :=
  match identify_circuit_from_description msg with
  | some tpl => (.circuitGeneration tpl.name, { s with current_circuit := some tpl })
  | none =>
    match handle_pcb_transition_request ts msg s with
    | ((true, r), s1) => (.pcbTransition r, s1)
    | ((false, _), s1) =>
      match handle_layer_approval ts msg s1 with
      | ((true, r2), s2) => (.layerApproval r2, s2)
      | ((false, _), s2) => (.plain, s2)

/-! ### Conversation history (`AIAPIClient.session_history`) -/

/-- A conversation-history entry (`role`/`content` of the dicts appended by
`send_message`; the timestamp/context fields do not affect trimming and are
not modelled). -/
structure HistEntry where
  role : String
  content : String
  deriving DecidableEq

/-- Bound `self.max_history_length = 20`. -/
def max_history_length : Nat := 20

/-- Model of `AIAPIClient._trim_history`: keep the last `max_history_length` entries
(`self.session_history[-self.max_history_length:]`). -/
def trim_history (h : List HistEntry) : List HistEntry :=
  if h.length > max_history_length then h.drop (h.length - max_history_length) else h

/-- One successful exchange of `send_message`: append the user message, then
the assistant response, then trim. -/
def record_exchange (h : List HistEntry) (u a : String) : List HistEntry :=
  trim_history (h ++ [⟨"user", u⟩, ⟨"assistant", a⟩])

/-- A sequence of successful exchanges. -/
def run_exchanges : List (String × String) → List HistEntry → List HistEntry
  | [], h => h
  | (u, a) :: rest, h => run_exchanges rest (record_exchange h u a)

/-- The untrimmed append log of a sequence of exchanges. -/
def full_log (h : List HistEntry) (msgs : List (String × String)) : List HistEntry :=
  h ++ msgs.flatMap (fun p => [⟨"user", p.1⟩, ⟨"assistant", p.2⟩])

/-! ### Sample states used by witnesses -/

/-- Concrete design-settings values (internal units). -/
def sampleSettings : DesignSettings :=
  ⟨250000, 800000, 400000, 200000, 400000, 300000, 200000⟩

/-- A plain saved 2-layer board. -/
def board2 : Board :=
  { copper_layer_count := 2
    enabled := [F_Cu, B_Cu]
    layer_names := [(F_Cu, "F.Cu"), (B_Cu, "B.Cu")]
    design_settings := sampleSettings
    has_clearance_attr := true }

/-- Fresh engine state over `board2`. -/
def opsState2 : OpState :=
  { board := some board2, backup_settings := [], operation_history := [] }

/-- Engine state with no active board (`pcbnew.GetBoard()` returns `None`). -/
def noBoardState : OpState :=
  { board := none, backup_settings := [], operation_history := [] }

/-- Session state: fresh 2-layer board, USB4 circuit active. -/
def appState2 : AppState :=
  { ops := opsState2, current_circuit := some usb4_flex }

/-- A settings request that changes the current track width and the clearance. -/
def clearanceReq : SettingsReq :=
  { track_width := some 1, min_track_width := none,
    via_size := none, via_drill := none, clearance := some 2 }

/-- The engine state after `modify_board_settings` applies `clearanceReq`. -/
def modifiedState : OpState := (modify_board_settings "t1" clearanceReq opsState2).2

/-- The board after `modify_board_settings` applies `clearanceReq` to
`board2`. -/
def modifiedBoard : Board :=
  { board2 with design_settings := (applySettings clearanceReq board2).1 }

/-- A recorded layer-addition operation. -/
def sampleOp : Operation := .add_copper_layers 2 4 [1, 2] "t1"

/-- A state whose history holds two recorded operations. -/
def historyState : OpState :=
  { board := some board2, backup_settings := [], operation_history := [sampleOp, sampleOp] }

/-! ### Helper lemmas -/

theorem can_add_true_iff (t : Nat) (s : OpState) :
    (can_add_copper_layers t s).1 = true ↔
      ∃ b, s.board = some b ∧ b.copper_layer_count < t ∧ t ≤ 30 ∧ (t % 2 = 0 ∨ t ≤ 2) := by
  cases hb : s.board with
  | none => simp [can_add_copper_layers, hb]
  | some b =>
    simp only [can_add_copper_layers, hb]
    split_ifs with h1 h2 h3
    all_goals simp_all
    all_goals omega

theorem add_result_cases (ts : String) (t : Nat) (s : OpState) :
    ((can_add_copper_layers t s).1 = false ∧
       add_copper_layers ts t s = ((false, (can_add_copper_layers t s).2), s)) ∨
    (∃ b, s.board = some b ∧ (can_add_copper_layers t s).1 = true ∧
       add_copper_layers ts t s =
         add_copper_layers_apply ts t b { s with backup_settings := mkBackup b }) := by
  by_cases h : (can_add_copper_layers t s).1 = false
  · exact Or.inl ⟨h, by simp [add_copper_layers, h]⟩
  · have h' : (can_add_copper_layers t s).1 = true := by
      revert h; cases (can_add_copper_layers t s).1 <;> simp
    obtain ⟨b, hb, _⟩ := (can_add_true_iff t s).1 h'
    exact Or.inr ⟨b, hb, h',
      by simp [add_copper_layers, h', hb, backup_current_settings]⟩

theorem modify_result_cases (ts : String) (settings : SettingsReq) (s : OpState) :
    (s.board = none ∧ modify_board_settings ts settings s = ((false, "No active board"), s)) ∨
    (∃ b, s.board = some b ∧
       modify_board_settings ts settings s =
         ((true, "Settings modified: " ++ String.intercalate ", " (applySettings settings b).2),
          { s with backup_settings := mkBackup b,
                   board := some { b with design_settings := (applySettings settings b).1 },
                   operation_history := s.operation_history ++
                     [.modify_board_settings settings (applySettings settings b).2 ts] })) := by
  cases hb : s.board with
  | none => exact Or.inl ⟨rfl, by simp [modify_board_settings, hb]⟩
  | some b =>
    exact Or.inr ⟨b, rfl, by simp [modify_board_settings, hb, backup_current_settings]⟩

theorem backup_false_iff (s : OpState) :
    (backup_current_settings s).1 = false ↔ s.board = none := by
  cases hb : s.board <;> simp [backup_current_settings, hb]

theorem restore_settings_frame (s : OpState) :
    (restore_settings s).2.operation_history = s.operation_history ∧
    (restore_settings s).2.backup_settings = s.backup_settings := by
  unfold restore_settings
  repeat' split
  all_goals exact ⟨rfl, rfl⟩

/-- The board produced by a successful `restore_settings`: only the three
current values are written back. -/
def restoredBoard (b : Board) (tw vs vd : ℚ) : Board :=
  { b with design_settings :=
    { b.design_settings with track_width := tw, via_size := vs, via_drill := vd } }

theorem restore_success (s : OpState) (h : (restore_settings s).1 = true) :
    ∃ b tw vs vd, s.board = some b ∧
      lookupQ s.backup_settings "track_width" = some tw ∧
      lookupQ s.backup_settings "via_size" = some vs ∧
      lookupQ s.backup_settings "via_drill" = some vd ∧
      restore_settings s = (true, { s with board := some (restoredBoard b tw vs vd) }) := by
  cases hne : s.backup_settings.isEmpty with
  | true => simp [restore_settings, hne] at h
  | false =>
    cases hb : s.board with
    | none => simp [restore_settings, hne, hb] at h
    | some b =>
      cases htw : lookupQ s.backup_settings "track_width" with
      | none => simp [restore_settings, hne, hb, htw] at h
      | some tw =>
        cases hvs : lookupQ s.backup_settings "via_size" with
        | none => simp [restore_settings, hne, hb, htw, hvs] at h
        | some vs =>
          cases hvd : lookupQ s.backup_settings "via_drill" with
          | none => simp [restore_settings, hne, hb, htw, hvs, hvd] at h
          | some vd =>
            refine ⟨b, tw, vs, vd, rfl, rfl, rfl, rfl, ?_⟩
            simp [restore_settings, restoredBoard, hne, hb, htw, hvs, hvd]

theorem suffix_append_right {α : Type} {l₁ l₂ : List α} (t : List α) (h : l₁ <:+ l₂) :
    l₁ ++ t <:+ l₂ ++ t := by
  obtain ⟨w, hw⟩ := h
  exact ⟨w, by rw [← hw, List.append_assoc]⟩

theorem trim_history_suffix (h : List HistEntry) : trim_history h <:+ h := by
  unfold trim_history
  split
  · exact List.drop_suffix _ _
  · exact List.suffix_refl _

theorem can_undo_true_getLast (s : OpState)
    (h : (can_undo_last_operation s).1 = true) :
    ∃ op, s.operation_history.getLast? = some op := by
  cases hg : s.operation_history.getLast? with
  | none => simp [can_undo_last_operation, hg] at h
  | some op => exact ⟨op, rfl⟩

theorem undo_history_cases (s : OpState) :
    ((undo_last_operation s).1.1 = false ∧
      (undo_last_operation s).2.operation_history = s.operation_history) ∨
    ((undo_last_operation s).1.1 = true ∧ s.operation_history ≠ [] ∧
      (undo_last_operation s).2.operation_history = s.operation_history.dropLast) := by
  by_cases hcu : (can_undo_last_operation s).1 = false
  · left
    constructor <;> simp [undo_last_operation, hcu]
  · have hcu' : (can_undo_last_operation s).1 = true := by
      revert hcu; cases (can_undo_last_operation s).1 <;> simp
    obtain ⟨op, hop⟩ := can_undo_true_getLast s hcu'
    have hne : s.operation_history ≠ [] := by
      intro h0; rw [h0] at hop; simp at hop
    cases hr : restore_settings s with
    | mk fst snd =>
      have hframe := restore_settings_frame s
      rw [hr] at hframe
      simp only [] at hframe
      cases fst with
      | false =>
        left
        constructor
        · simp [undo_last_operation, hcu', hr]
        · simp [undo_last_operation, hcu', hr, hframe.1]
      | true =>
        right
        refine ⟨?_, hne, ?_⟩
        · simp [undo_last_operation, hcu', hr, hframe.1, hop]
        · simp [undo_last_operation, hcu', hr, hframe.1, hop]

theorem undo_success_spec (s : OpState) (h : (undo_last_operation s).1.1 = true) :
    ∃ b tw vs vd op,
      s.board = some b ∧
      lookupQ s.backup_settings "track_width" = some tw ∧
      lookupQ s.backup_settings "via_size" = some vs ∧
      lookupQ s.backup_settings "via_drill" = some vd ∧
      s.operation_history.getLast? = some op ∧
      undo_last_operation s =
        ((true, "Undone: " ++ opType op ++ " from " ++ opTimestamp op),
         { s with
            board := some (restoredBoard b tw vs vd)
            operation_history := s.operation_history.dropLast }) := by
  by_cases hcu : (can_undo_last_operation s).1 = false
  · simp [undo_last_operation, hcu] at h
  · have hcu' : (can_undo_last_operation s).1 = true := by
      revert hcu; cases (can_undo_last_operation s).1 <;> simp
    obtain ⟨op, hop⟩ := can_undo_true_getLast s hcu'
    cases hr : restore_settings s with
    | mk fst snd =>
      have hframe := restore_settings_frame s
      rw [hr] at hframe
      simp only [] at hframe
      cases fst with
      | false => simp [undo_last_operation, hcu', hr] at h
      | true =>
        obtain ⟨b, tw, vs, vd, hb, htw, hvs, hvd, hres⟩ := restore_success s (by rw [hr])
        rw [hr] at hres
        have hsnd : snd = { s with board := some (restoredBoard b tw vs vd) } := by
          have := congrArg Prod.snd hres
          simpa using this
        refine ⟨b, tw, vs, vd, op, hb, htw, hvs, hvd, hop, ?_⟩
        simp [undo_last_operation, hcu', hr, hsnd, hop]

theorem trim_history_length (h : List HistEntry) :
    (trim_history h).length = min h.length max_history_length := by
  unfold trim_history max_history_length
  split
  · rename_i hl
    simp only [List.length_drop]
    omega
  · rename_i hl
    omega

/-! ### Claim theorems -/

/-- C1: for every target count and every engine state whose board has at
least `target` copper layers, `add_copper_layers target` returns the
not-increasing failure and performs no mutation — the returned state is the
input state, so the copper layer count, the operation history and the stored
backup snapshot are all unchanged. -/
theorem C1_not_increasing_rejected_without_mutation
    (ts : String) (target : Nat) (s : OpState) (b : Board)
    (hb : s.board = some b) (hle : target ≤ b.copper_layer_count) :
    add_copper_layers ts target s =
      ((false,
        s!"Board already has {b.copper_layer_count} copper layers (requested: {target})"),
       s) := by
  have hc : can_add_copper_layers target s =
      (false,
        s!"Board already has {b.copper_layer_count} copper layers (requested: {target})") := by
    simp only [can_add_copper_layers, hb]
    rw [if_pos hle]
  simp [add_copper_layers, hc]

/-- C1 witness: requesting 2 layers on the 2-layer `board2` fails with the
not-increasing message and leaves the state untouched. -/
theorem C1_witness :
    add_copper_layers "t0" 2 opsState2 =
      ((false, "Board already has 2 copper layers (requested: 2)"), opsState2) :=
  C1_not_increasing_rejected_without_mutation "t0" 2 opsState2 board2 rfl (by decide)

/-- C2: a successful `add_copper_layers target` implies `target ≤ 30` and
`target` is not an odd number greater than 2, and leaves the board with
exactly `target` copper layers; a request violating either limit is rejected
with the input state returned unchanged. -/
theorem C2_layer_count_limits (ts : String) (target : Nat) (s : OpState) :
    ((add_copper_layers ts target s).1.1 = true →
       target ≤ 30 ∧ (target % 2 ≠ 0 → target ≤ 2) ∧
       ∃ b, (add_copper_layers ts target s).2.board = some b ∧
         b.copper_layer_count = target) ∧
    ((30 < target ∨ (target % 2 ≠ 0 ∧ 2 < target)) →
       (add_copper_layers ts target s).1.1 = false ∧
       (add_copper_layers ts target s).2 = s) := by
  rcases add_result_cases ts target s with ⟨hc, heq⟩ | ⟨b, hb, hc, heq⟩
  · constructor
    · intro hsucc
      rw [heq] at hsucc
      simp at hsucc
    · intro _
      rw [heq]
      exact ⟨rfl, rfl⟩
  · obtain ⟨b', hb', hlt, hle, hpar⟩ := (can_add_true_iff target s).1 hc
    rw [hb] at hb'
    injection hb' with hbb
    subst hbb
    constructor
    · intro _
      refine ⟨hle, fun hodd => ?_, ?_⟩
      · rcases hpar with he | h2
        · omega
        · exact h2
      · rw [heq]
        exact ⟨_, rfl, rfl⟩
    · intro hviol
      exfalso
      rcases hviol with h30 | ⟨hodd, h2⟩
      · omega
      · rcases hpar with he | hle2 <;> omega

/-- C2 witness: `target = 4` on `board2` succeeds within the limits and
yields a 4-layer board; `target = 31` is rejected without mutation. -/
theorem C2_witness :
    ((4 : Nat) ≤ 30 ∧ ((4 : Nat) % 2 ≠ 0 → (4 : Nat) ≤ 2) ∧
      ∃ b, (add_copper_layers "t0" 4 opsState2).2.board = some b ∧
        b.copper_layer_count = 4) ∧
    ((add_copper_layers "t0" 31 opsState2).1.1 = false ∧
      (add_copper_layers "t0" 31 opsState2).2 = opsState2) :=
  ⟨(C2_layer_count_limits "t0" 4 opsState2).1 (by decide),
   (C2_layer_count_limits "t0" 31 opsState2).2 (Or.inl (by norm_num))⟩

/-- C3: a successful `add_copper_layers` or `modify_board_settings` leaves
the stored snapshot equal to `mkBackup` of the pre-mutation board (the
snapshot is captured before any change is applied), and when the backup step
fails (no active board) both mutations fail returning the input state
unchanged. -/
theorem C3_snapshot_before_mutation
    (ts : String) (target : Nat) (settings : SettingsReq) (s : OpState) :
    ((add_copper_layers ts target s).1.1 = true →
       ∃ b, s.board = some b ∧
         (add_copper_layers ts target s).2.backup_settings = mkBackup b) ∧
    ((modify_board_settings ts settings s).1.1 = true →
       ∃ b, s.board = some b ∧
         (modify_board_settings ts settings s).2.backup_settings = mkBackup b) ∧
    ((backup_current_settings s).1 = false →
       (add_copper_layers ts target s).1.1 = false ∧
       (add_copper_layers ts target s).2 = s ∧
       (modify_board_settings ts settings s).1.1 = false ∧
       (modify_board_settings ts settings s).2 = s) := by
  refine ⟨?_, ?_, ?_⟩
  · intro hsucc
    rcases add_result_cases ts target s with ⟨hc, heq⟩ | ⟨b, hb, hc, heq⟩
    · rw [heq] at hsucc
      simp at hsucc
    · exact ⟨b, hb, by rw [heq]; rfl⟩
  · intro hsucc
    rcases modify_result_cases ts settings s with ⟨hn, heq⟩ | ⟨b, hb, heq⟩
    · rw [heq] at hsucc
      simp at hsucc
    · exact ⟨b, hb, by rw [heq]⟩
  · intro hfail
    have hn : s.board = none := (backup_false_iff s).1 hfail
    have hca : can_add_copper_layers target s = (false, "No active board") := by
      simp [can_add_copper_layers, hn]
    refine ⟨?_, ?_, ?_, ?_⟩
    · simp [add_copper_layers, hca]
    · simp [add_copper_layers, hca]
    · simp [modify_board_settings, hn]
    · simp [modify_board_settings, hn]

/-- C3 witness: on `board2` a successful layer addition and a successful
settings change both store the snapshot of the pre-mutation board; with no
active board both mutations fail without touching the state. -/
theorem C3_witness :
    (∃ b, opsState2.board = some b ∧
      (add_copper_layers "t0" 4 opsState2).2.backup_settings = mkBackup b) ∧
    (∃ b, opsState2.board = some b ∧
      (modify_board_settings "t0" clearanceReq opsState2).2.backup_settings = mkBackup b) ∧
    ((add_copper_layers "t0" 4 noBoardState).1.1 = false ∧
      (add_copper_layers "t0" 4 noBoardState).2 = noBoardState ∧
      (modify_board_settings "t0" clearanceReq noBoardState).1.1 = false ∧
      (modify_board_settings "t0" clearanceReq noBoardState).2 = noBoardState) :=
  ⟨(C3_snapshot_before_mutation "t0" 4 clearanceReq opsState2).1 (by decide),
   (C3_snapshot_before_mutation "t0" 4 clearanceReq opsState2).2.1 (by decide),
   (C3_snapshot_before_mutation "t0" 4 clearanceReq noBoardState).2.2 (by decide)⟩

/-- C4 counterexample: `clear_operation_history` — an operation offered by
the mutation engine — removes two entries at once from `historyState`, so the
history length does not only grow-or-lose-one-from-the-tail as claimed. -/
theorem C4_counterexample :
    historyState.operation_history.length = 2 ∧
    (clear_operation_history historyState).operation_history.length = 0 ∧
    (clear_operation_history historyState).operation_history ≠
      historyState.operation_history.dropLast := by
  decide

/-- C4 amended: `add_copper_layers` and `modify_board_settings` leave the
history unchanged or append exactly one entry at the tail;
`undo_last_operation` leaves it unchanged or removes exactly the tail entry
(and on success it removes exactly that one entry from a non-empty history);
`clear_operation_history` empties the history entirely. -/
theorem C4_history_discipline
    (ts : String) (target : Nat) (settings : SettingsReq) (s : OpState) :
    ((add_copper_layers ts target s).2.operation_history = s.operation_history ∨
      ∃ op, (add_copper_layers ts target s).2.operation_history =
        s.operation_history ++ [op]) ∧
    ((modify_board_settings ts settings s).2.operation_history = s.operation_history ∨
      ∃ op, (modify_board_settings ts settings s).2.operation_history =
        s.operation_history ++ [op]) ∧
    ((undo_last_operation s).2.operation_history = s.operation_history ∨
      (undo_last_operation s).2.operation_history = s.operation_history.dropLast) ∧
    ((undo_last_operation s).1.1 = true →
      s.operation_history ≠ [] ∧
      (undo_last_operation s).2.operation_history = s.operation_history.dropLast) ∧
    (clear_operation_history s).operation_history = [] := by
  refine ⟨?_, ?_, ?_, ?_, rfl⟩
  · rcases add_result_cases ts target s with ⟨hc, heq⟩ | ⟨b, hb, hc, heq⟩
    · rw [heq]
      exact Or.inl rfl
    · rw [heq]
      exact Or.inr ⟨_, rfl⟩
  · rcases modify_result_cases ts settings s with ⟨hn, heq⟩ | ⟨b, hb, heq⟩
    · rw [heq]
      exact Or.inl rfl
    · rw [heq]
      exact Or.inr ⟨_, rfl⟩
  · rcases undo_history_cases s with ⟨_, hh⟩ | ⟨_, _, hh⟩
    · exact Or.inl hh
    · exact Or.inr hh
  · intro hsucc
    rcases undo_history_cases s with ⟨hf, _⟩ | ⟨_, hne, hh⟩
    · rw [hsucc] at hf
      simp at hf
    · exact ⟨hne, hh⟩

/-- C4 witness: a successful addition appends one entry, undoing it removes
exactly that entry, and clearing empties the history. -/
theorem C4_witness :
    ((add_copper_layers "t0" 4 opsState2).2.operation_history = opsState2.operation_history ∨
      ∃ op, (add_copper_layers "t0" 4 opsState2).2.operation_history =
        opsState2.operation_history ++ [op]) ∧
    ((undo_last_operation historyState).1.1 = true →
      historyState.operation_history ≠ [] ∧
      (undo_last_operation historyState).2.operation_history =
        historyState.operation_history.dropLast) ∧
    (clear_operation_history historyState).operation_history = [] :=
  ⟨(C4_history_discipline "t0" 4 clearanceReq opsState2).1,
   (C4_history_discipline "t0" 4 clearanceReq historyState).2.2.2.1,
   (C4_history_discipline "t0" 4 clearanceReq historyState).2.2.2.2⟩

/-- C5: in the state where a 4-layer recommendation is pending (active USB4
circuit on a 2-layer board), the message "yes" is consumed by
`handle_pcb_transition_request`, which only re-emits the recommendation and
mutates nothing — no copper layers are added and the operation history stays
empty.  `handle_layer_approval`, whose keyword list also contains "yes" and
which would invoke `add_copper_layers 4`, is shadowed by the
dispatch order of `postprocess_response` and never fires on "yes": no flow
state exists in the code to route the bare "yes" to the approval path. -/
theorem C5_yes_consumed_by_transition_handler :
    postprocess_response "t0" "yes" appState2 =
      (.pcbTransition (layerRecommendationText usb4_flex 4), appState2) ∧
    (postprocess_response "t0" "yes" appState2).2.ops.operation_history = [] ∧
    (postprocess_response "t0" "yes" appState2).2.ops.board = some board2 ∧
    (handle_layer_approval "t0" "yes" appState2).1.1 = true ∧
    (handle_layer_approval "t0" "yes" appState2).2.ops.operation_history.length = 1 := by
  decide

/-- C6 counterexample: on the 2-layer `board2`, the request
`"Add 2 copper layers"` extracts target count 2 — the last number of the
message, because the text contains "layer" — not current + 2 = 4, and the
can-add check fails with the not-increasing message. -/
theorem C6_counterexample :
    process_advanced_request "Add 2 copper layers" appState2 =
      (true, "Layer operation requested: 2 layers",
        .layerOp "add_layers" 2 false
          "Board already has 2 copper layers (requested: 2)") := by
  decide

/-- C6 amended: on every session state whose board has 2 copper layers,
processing `"Add 2 copper layers"` recognizes a layer operation with target
count 2 (the last number in the text, taken because the text contains
"layer"), for which `can_add_copper_layers` fails as not increasing. -/
theorem C6_add_two_layers_extracts_last_number (s : AppState) (b : Board)
    (hb : s.ops.board = some b) (h2 : b.copper_layer_count = 2) :
    process_advanced_request "Add 2 copper layers" s =
      (true, "Layer operation requested: 2 layers",
        .layerOp "add_layers" 2 false
          "Board already has 2 copper layers (requested: 2)") := by
  have hca : can_add_copper_layers 2 s.ops =
      (false, "Board already has 2 copper layers (requested: 2)") := by
    simp only [can_add_copper_layers, hb, h2]
    decide
  have e1 : findall_digits "Add 2 copper layers" = [2] := by decide
  have e2 : strContains (pyLower "Add 2 copper layers") "add" = true := by decide
  have e3 : strContains (pyLower "Add 2 copper layers") "copper" = true := by decide
  have e4 : strContains (pyLower "Add 2 copper layers") "layer" = true := by decide
  have e5 : ([2] : List Nat).getLastD 0 = 2 := by decide
  simp [process_advanced_request, e1, e2, e3, e4, e5, hca]
  decide

/-- C6 witness: the amended statement instantiated on `appState2`. -/
theorem C6_witness :
    process_advanced_request "Add 2 copper layers" appState2 =
      (true, "Layer operation requested: 2 layers",
        .layerOp "add_layers" 2 false
          "Board already has 2 copper layers (requested: 2)") :=
  C6_add_two_layers_extracts_last_number appState2 board2 rfl rfl

/-- C7: the circuit matcher is a pure function of the description — calling
it twice yields the same result — and any description containing none of the
recognized keyword phrases (after lowercasing) maps to `none`. -/
theorem C7_matcher_pure_and_none_default (d : String)
    (hnone : ∀ k ∈ allCircuitKeywords, strContains (pyLower d) k = false) :
    identify_circuit_from_description d = identify_circuit_from_description d ∧
    identify_circuit_from_description d = none := by
  refine ⟨rfl, ?_⟩
  have h1 : (usb4_keywords.any (fun k => strContains (pyLower d) k)) = false := by
    rw [List.any_eq_false]
    intro k hk
    simp [hnone k (by simp [allCircuitKeywords, hk])]
  have h2 : (lightning_keywords.any (fun k => strContains (pyLower d) k)) = false := by
    rw [List.any_eq_false]
    intro k hk
    simp [hnone k (by simp [allCircuitKeywords, hk])]
  have h3 : (led_keywords.any (fun k => strContains (pyLower d) k)) = false := by
    rw [List.any_eq_false]
    intro k hk
    simp [hnone k (by simp [allCircuitKeywords, hk])]
  have h4 : (power_keywords.any (fun k => strContains (pyLower d) k)) = false := by
    rw [List.any_eq_false]
    intro k hk
    simp [hnone k (by simp [allCircuitKeywords, hk])]
  simp [identify_circuit_from_description, h1, h2, h3, h4]

/-- C7 witness: a description with no recognized keyword maps to `none`. -/
theorem C7_witness :
    identify_circuit_from_description "hello world" =
      identify_circuit_from_description "hello world" ∧
    identify_circuit_from_description "hello world" = none :=
  C7_matcher_pure_and_none_default "hello world" (by decide)

/-- C8: risk-tier assignment is total and matches the fixed table — the
three cosmetic types are Safe, move/rotate and reroute/add-track are Medium,
component value/add/delete and the board-wide settings types are High, the
layer/stackup and net types are Critical — and every string outside the
table yields Medium. -/
theorem C8_risk_tier_total_table (t : String)
    (hu : t ∉ recognizedModificationTypes) :
    (∀ ty ∈ ["update_silkscreen", "modify_text", "change_color"],
      assess_modification_risk ty = .SAFE) ∧
    (∀ ty ∈ ["move_component", "rotate_component", "reroute_net", "add_track"],
      assess_modification_risk ty = .MEDIUM) ∧
    (∀ ty ∈ ["change_component_value", "add_component", "delete_component",
             "modify_board_settings", "change_track_width", "change_via_size"],
      assess_modification_risk ty = .HIGH) ∧
    (∀ ty ∈ ["add_copper_layers", "change_layer_count", "modify_stackup",
             "delete_net", "split_net", "merge_nets"],
      assess_modification_risk ty = .CRITICAL) ∧
    assess_modification_risk t = .MEDIUM := by
  have mem_sub : ∀ l : List String,
      (∀ x ∈ l, x ∈ recognizedModificationTypes) → t ∉ l :=
    fun l hsub hm => hu (hsub t hm)
  have c1 : t ∉ ["add_copper_layers", "change_layer_count", "modify_stackup"] :=
    mem_sub _ (by decide)
  have c2 : t ∉ ["modify_board_settings", "change_track_width", "change_via_size"] :=
    mem_sub _ (by decide)
  have c3 : t ∉ ["move_component", "rotate_component"] :=
    mem_sub _ (by decide)
  have c4 : t ∉ ["delete_component", "add_component", "change_component_value"] :=
    mem_sub _ (by decide)
  have c5 : t ∉ ["reroute_net", "add_track"] :=
    mem_sub _ (by decide)
  have c6 : t ∉ ["delete_net", "split_net", "merge_nets"] :=
    mem_sub _ (by decide)
  have c7 : t ∉ ["update_silkscreen", "modify_text", "change_color"] :=
    mem_sub _ (by decide)
  refine ⟨by decide, by decide, by decide, by decide, ?_⟩
  simp [assess_modification_risk, c1, c2, c3, c4, c5, c6, c7]

/-- C8 witness: the unrecognized type "frobnicate" yields Medium, alongside
the nineteen fixed table rows. -/
theorem C8_witness :
    (∀ ty ∈ ["update_silkscreen", "modify_text", "change_color"],
      assess_modification_risk ty = .SAFE) ∧
    (∀ ty ∈ ["move_component", "rotate_component", "reroute_net", "add_track"],
      assess_modification_risk ty = .MEDIUM) ∧
    (∀ ty ∈ ["change_component_value", "add_component", "delete_component",
             "modify_board_settings", "change_track_width", "change_via_size"],
      assess_modification_risk ty = .HIGH) ∧
    (∀ ty ∈ ["add_copper_layers", "change_layer_count", "modify_stackup",
             "delete_net", "split_net", "merge_nets"],
      assess_modification_risk ty = .CRITICAL) ∧
    assess_modification_risk "frobnicate" = .MEDIUM :=
  C8_risk_tier_total_table "frobnicate" (by decide)

/-- C9: starting from any history within the bound, after any sequence of
exchanges the history length never exceeds `max_history_length`; the
retained entries are exactly the most recent `min (total, 20)` appended
entries, in original append order (a suffix of the untrimmed append log). -/
theorem C9_history_bounded_last_n (msgs : List (String × String)) (h : List HistEntry)
    (hlen : h.length ≤ max_history_length) :
    (run_exchanges msgs h).length ≤ max_history_length ∧
    (run_exchanges msgs h).length = min (h.length + 2 * msgs.length) max_history_length ∧
    run_exchanges msgs h <:+ full_log h msgs := by
  induction msgs generalizing h with
  | nil =>
    refine ⟨hlen, ?_, ?_⟩
    · simp only [run_exchanges, List.length_nil]
      omega
    · exact ⟨[], by simp [run_exchanges, full_log]⟩
  | cons m rest ih =>
    obtain ⟨u, a⟩ := m
    have hrec_len : (record_exchange h u a).length = min (h.length + 2) max_history_length := by
      simp [record_exchange, trim_history_length]
    have hrec_le : (record_exchange h u a).length ≤ max_history_length := by
      rw [hrec_len]
      omega
    obtain ⟨ihle, ihlen, ihsuf⟩ := ih (record_exchange h u a) hrec_le
    refine ⟨?_, ?_, ?_⟩
    · simpa only [run_exchanges] using ihle
    · simp only [run_exchanges, List.length_cons]
      rw [ihlen, hrec_len]
      simp only [max_history_length]
      omega
    · have h1 : record_exchange h u a <:+ h ++ [⟨"user", u⟩, ⟨"assistant", a⟩] :=
        trim_history_suffix _
      have h2 : full_log (record_exchange h u a) rest <:+ full_log h ((u, a) :: rest) := by
        unfold full_log
        have h3 := suffix_append_right
          (rest.flatMap fun p => [⟨"user", p.1⟩, ⟨"assistant", p.2⟩]) h1
        simpa [List.append_assoc] using h3
      simpa only [run_exchanges] using ihsuf.trans h2

/-- C9 witness: one exchange from an empty history. -/
theorem C9_witness :
    (run_exchanges [("q", "a")] []).length ≤ max_history_length ∧
    (run_exchanges [("q", "a")] []).length =
      min (([] : List HistEntry).length + 2 * [("q", "a")].length) max_history_length ∧
    run_exchanges [("q", "a")] [] <:+ full_log [] [("q", "a")] :=
  C9_history_bounded_last_n [("q", "a")] [] (by decide)

/-- C10 counterexample: a successful `modify_board_settings` that changes
the clearance stores a snapshot with no "clearance" key at all — the
snapshot keys are exactly the eight listed ones — refuting the claim that
the clearance is among the fields captured in the snapshot. -/
theorem C10_counterexample :
    (modify_board_settings "t1" clearanceReq opsState2).1.1 = true ∧
    modifiedState.backup_settings.lookup "clearance" = none ∧
    modifiedState.backup_settings.map Prod.fst =
      ["layer_count", "track_width", "via_size", "via_drill",
       "min_track_width", "min_via_size", "min_via_drill", "enabled_layers"] := by
  decide

/-- C10 amended: a successful `undo_last_operation` writes back only the
snapshot's current track width, via size and via drill; the copper layer
count, enabled layers, layer names, minimum track width, minimum via size,
minimum via drill and the clearance (the latter never being captured in the
snapshot) all keep their post-mutation values, and the stored snapshot
itself is unchanged. -/
theorem C10_undo_restores_only_current_values (s : OpState) (b : Board)
    (hb : s.board = some b) (hsucc : (undo_last_operation s).1.1 = true) :
    ∃ b', (undo_last_operation s).2.board = some b' ∧
      lookupQ s.backup_settings "track_width" = some b'.design_settings.track_width ∧
      lookupQ s.backup_settings "via_size" = some b'.design_settings.via_size ∧
      lookupQ s.backup_settings "via_drill" = some b'.design_settings.via_drill ∧
      b'.copper_layer_count = b.copper_layer_count ∧
      b'.enabled = b.enabled ∧
      b'.layer_names = b.layer_names ∧
      b'.design_settings.m_TrackMinWidth = b.design_settings.m_TrackMinWidth ∧
      b'.design_settings.m_ViasMinSize = b.design_settings.m_ViasMinSize ∧
      b'.design_settings.m_ViasMinDrill = b.design_settings.m_ViasMinDrill ∧
      b'.design_settings.m_TrackClearance = b.design_settings.m_TrackClearance ∧
      (undo_last_operation s).2.backup_settings = s.backup_settings := by
  obtain ⟨b0, tw, vs, vd, op, hb0, htw, hvs, hvd, hop, hundo⟩ := undo_success_spec s hsucc
  rw [hb] at hb0
  injection hb0 with hbb
  subst hbb
  refine ⟨restoredBoard b tw vs vd, ?_, htw, hvs, hvd,
    rfl, rfl, rfl, rfl, rfl, rfl, rfl, ?_⟩
  · rw [hundo]
  · rw [hundo]

/-- C10 witness: undoing the clearance-and-track-width modification on
`board2` restores the backed-up track width/via size/via drill and keeps the
post-mutation clearance and remaining fields. -/
theorem C10_witness :
    ∃ b', (undo_last_operation modifiedState).2.board = some b' ∧
      lookupQ modifiedState.backup_settings "track_width" =
        some b'.design_settings.track_width ∧
      lookupQ modifiedState.backup_settings "via_size" =
        some b'.design_settings.via_size ∧
      lookupQ modifiedState.backup_settings "via_drill" =
        some b'.design_settings.via_drill ∧
      b'.copper_layer_count = modifiedBoard.copper_layer_count ∧
      b'.enabled = modifiedBoard.enabled ∧
      b'.layer_names = modifiedBoard.layer_names ∧
      b'.design_settings.m_TrackMinWidth = modifiedBoard.design_settings.m_TrackMinWidth ∧
      b'.design_settings.m_ViasMinSize = modifiedBoard.design_settings.m_ViasMinSize ∧
      b'.design_settings.m_ViasMinDrill = modifiedBoard.design_settings.m_ViasMinDrill ∧
      b'.design_settings.m_TrackClearance = modifiedBoard.design_settings.m_TrackClearance ∧
      (undo_last_operation modifiedState).2.backup_settings =
        modifiedState.backup_settings :=
  C10_undo_restores_only_current_values modifiedState modifiedBoard rfl (by decide)

end SmartCat
